import Mathlib

/-!
# Verification of the starlark-mcp LLM eval harness

Shallow embedding of the eval harness of `github.com/alexmdac/starlark-mcp`:
the provider-agnostic conversation model (`internal/llm/llm.go`), the two
wire-protocol adapters (the OpenAI role-message client with its 429
retry/backoff transport, and the Anthropic block-style client), the
single-trial runner `runEval` of the eval command, and the case selection
code `filterCases` / `parseTierSpec` (`evals/filter.go`), together with
proofs about the properties those components are specified to have.

Modeling conventions:
* Go strings are Lean `String`s; `json.RawMessage` payloads are carried as
  their raw text.
* Go `int` / `int64` are `Int` (with explicit range checks where Go has
  them); counters that start at 0 and only grow are `Nat`.
* `time.Duration` is `Int` (nanoseconds).
* `float64` scores (`1.0 / math.Pow(2, float64(attempts-1))`) are modeled in
  `ℚ`; the values involved are dyadic rationals that float64 represents
  exactly for every realistic attempt count.
* Effects (HTTP calls, the MCP tool, random jitter) are oracles passed in as
  functions; sleeping is recorded as a list of slept durations; `log.Fatalf`
  is a distinguished process-abort outcome.
-/

namespace Llm

/-- `internal/llm`: ToolCall — the LLM requesting a tool invocation.
`input` is a `json.RawMessage`, carried as raw text. -/
structure ToolCall where
  id : String
  name : String
  input : String
deriving DecidableEq

/-- `internal/llm`: ToolResult — the outcome of executing a tool call. -/
structure ToolResult where
  toolCallID : String
  content : String
  isError : Bool
deriving DecidableEq

/-- `internal/llm`: ToolDef — a tool exposed to the model.  The JSON input
schema is carried as raw text. -/
structure ToolDef where
  name : String
  description : String
  inputSchema : String
deriving DecidableEq

/-- `internal/llm`: Role — the Go constants RoleUser / RoleAssistant. -/
inductive Role
  | user
  | assistant
deriving DecidableEq

/-- Go `Role` values are the strings "user" / "assistant"; the adapters write
them onto the wire via `string(m.Role)`. -/
def Role.toWire : Role → String
  | .user => "user"
  | .assistant => "assistant"

/-- `internal/llm`: Message — a single message in the conversation. -/
structure Message where
  role : Role
  text : String := ""
  toolCalls : List ToolCall := []
  toolResult : Option ToolResult := none
deriving DecidableEq

/-- `internal/llm`: Usage — token consumption counters. -/
structure Usage where
  inputTokens : Int := 0
  outputTokens : Int := 0
deriving DecidableEq

/-- `internal/llm`: MessageResponse — the LLM's reply. -/
structure MessageResponse where
  text : String := ""
  toolCalls : List ToolCall := []
  usage : Usage := {}
deriving DecidableEq

/-- `internal/llm`: MessageParams — one request. -/
structure MessageParams where
  system : String := ""
  messages : List Message := []
  tools : List ToolDef := []
  maxTokens : Int := 0
deriving DecidableEq

/-! ## OpenAI (role-message style) wire types and conversions -/

/-- OpenAI wire type `openAIFunctionCall`. -/
structure openAIFunctionCall where
  name : String
  arguments : String
deriving DecidableEq

/-- OpenAI wire type `openAIToolCall`. -/
structure openAIToolCall where
  id : String
  type : String
  function : openAIFunctionCall
deriving DecidableEq

/-- OpenAI wire type `openAIMessage`.  Fields that Go leaves at their zero
value ("" / nil) default accordingly. -/
structure openAIMessage where
  role : String
  content : String := ""
  toolCalls : List openAIToolCall := []
  toolCallID : String := ""
deriving DecidableEq

/-- `toOpenAIMessages` converts a single `llm.Message` into one or more
OpenAI wire messages.  A tool result becomes a "tool" role message; if the
same Message also has text (e.g. a nudge), it becomes a separate "user"
message appended afterwards. -/
def toOpenAIMessages (m : Message) : List openAIMessage :=
  let out : List openAIMessage :=
    match m.toolResult with
    | some tr => [{ role := "tool", content := tr.content, toolCallID := tr.toolCallID }]
    | none => []
  let out : List openAIMessage :=
    if m.toolCalls.length > 0 then
      out ++ [{ role := "assistant", content := m.text,
                toolCalls := m.toolCalls.map fun tc =>
                  { id := tc.id, type := "function",
                    function := { name := tc.name, arguments := tc.input } } }]
    else if m.text ≠ "" ∧ m.toolResult = none then
      out ++ [{ role := m.role.toWire, content := m.text }]
    else out
  if m.text ≠ "" ∧ m.toolResult ≠ none then
    out ++ [{ role := "user", content := m.text }]
  else out

/-- OpenAI wire type `openAIUsage`. -/
structure openAIUsage where
  promptTokens : Int := 0
  completionTokens : Int := 0
deriving DecidableEq

/-- OpenAI wire type `openAIChoice`. -/
structure openAIChoice where
  message : openAIMessage
deriving DecidableEq

/-- OpenAI wire type `openAIResponse`. -/
structure openAIResponse where
  choices : List openAIChoice := []
  usage : openAIUsage := {}
deriving DecidableEq

/-- Errors surfaced by a client's SendMessage.  Go returns formatted error
strings; the constructors keep the data the formats carry. -/
inductive SendError
  | netErr (msg : String)
  | apiError (status : Nat)
  | parseError (msg : String)
deriving DecidableEq

/-- `(*OpenAIClient).parseResponse`: a response with an empty choices list is
a hard parse error; otherwise the first choice's message supplies the text
and tool calls, and the usage counters are copied over. -/
def OpenAIClient.parseResponse (resp : openAIResponse) : Except SendError MessageResponse :=
  match resp.choices with
  | [] => .error (.parseError "no choices in response")
  | choice :: _ =>
    let msg := choice.message
    .ok { text := msg.content,
          toolCalls := msg.toolCalls.map fun tc =>
            { id := tc.id, name := tc.function.name, input := tc.function.arguments },
          usage := { inputTokens := resp.usage.promptTokens,
                     outputTokens := resp.usage.completionTokens } }

/-! ## Anthropic (block style) wire types and conversions -/

/-- An Anthropic request content block.  Go builds these as `map[string]any`;
the tagged union carries exactly the fields each block kind sets.  In the
tool_result block Go adds the "is_error" key only when the result is an
error; the Bool records whether that key is present. -/
inductive AnthropicBlock
  | toolResult (toolUseId content : String) (isError : Bool)
  | text (t : String)
  | toolUse (id name input : String)
deriving DecidableEq

/-- Anthropic wire type `anthropicMessage`. -/
structure anthropicMessage where
  role : String
  content : List AnthropicBlock
deriving DecidableEq

/-- `toAnthropicMessage` converts one `llm.Message` into exactly one Anthropic
wire message: first the tool_result block (if a tool result is present), then
a text block (if the text is nonempty), then one tool_use block per tool
call. -/
def toAnthropicMessage (m : Message) : anthropicMessage :=
  let blocks : List AnthropicBlock :=
    match m.toolResult with
    | some tr => [.toolResult tr.toolCallID tr.content tr.isError]
    | none => []
  let blocks := if m.text ≠ "" then blocks ++ [.text m.text] else blocks
  let blocks := blocks ++ m.toolCalls.map fun tc => .toolUse tc.id tc.name tc.input
  { role := m.role.toWire, content := blocks }

/-- Anthropic response content block (all optional fields default to ""). -/
structure anthropicContentBlock where
  type : String
  text : String := ""
  id : String := ""
  name : String := ""
  input : String := ""
deriving DecidableEq

/-- Anthropic wire type `anthropicUsage`. -/
structure anthropicUsage where
  inputTokens : Int := 0
  outputTokens : Int := 0
deriving DecidableEq

/-- Anthropic wire type `anthropicResponse`. -/
structure anthropicResponse where
  content : List anthropicContentBlock := []
  usage : anthropicUsage := {}
deriving DecidableEq

/-- `(*AnthropicClient).parseResponse`: concatenates the text of all "text"
blocks and collects all "tool_use" blocks in order.  The Go function returns
`*MessageResponse` with no error value: it cannot fail, and a response with
zero content blocks yields an empty MessageResponse. -/
def AnthropicClient.parseResponse (resp : anthropicResponse) : MessageResponse :=
  resp.content.foldl
    (fun acc cb =>
      if cb.type = "text" then { acc with text := acc.text ++ cb.text }
      else if cb.type = "tool_use" then
        { acc with toolCalls := acc.toolCalls ++ [⟨cb.id, cb.name, cb.input⟩] }
      else acc)
    { text := "", toolCalls := [],
      usage := { inputTokens := resp.usage.inputTokens,
                 outputTokens := resp.usage.outputTokens } }

end Llm

/-! ## Resilient transport (OpenAI client, part of `openai.go`) -/

namespace GoStrconv

/-- Modeled on Go `strconv.Atoi` on a 64-bit platform: an optional sign
followed by one or more decimal digits; the empty string, any other
character, or a value outside the int64 range is an error. -/
def atoi (s : String) : Except Unit Int :=
  let signed : Bool × List Char :=
    match s.data with
    | '+' :: rest => (false, rest)
    | '-' :: rest => (true, rest)
    | l => (false, l)
  let neg := signed.1
  let digits := signed.2
  if digits = [] then .error ()
  else if digits.all (·.isDigit) then
    let n : Nat := digits.foldl (fun acc c => acc * 10 + (c.toNat - '0'.toNat)) 0
    let v : Int := if neg then -(n : Int) else (n : Int)
    if v < -(2 ^ 63) ∨ v > 2 ^ 63 - 1 then .error () else .ok v
  else .error ()

end GoStrconv

namespace Llm

/-- `time.Second` in nanoseconds (`time.Duration` is modeled as `Int`
nanoseconds). -/
def second : Int := 1000000000

/-- `parseRetryAfter` parses a Retry-After header value as seconds.  Only the
integer-seconds format is supported.  Returns -1 if the header is missing
("" — Go's `Header.Get` for an absent header) or unparseable, or the value
is negative. -/
def parseRetryAfter (s : String) : Int :=
  if s = "" then -1
  else
    match GoStrconv.atoi s with
    | .error _ => -1
    | .ok secs => if secs < 0 then -1 else secs * second

/-- `const maxRetries = 8` — total attempts, not extra retries. -/
def maxRetries : Nat := 8

/-- One underlying HTTP call outcome as seen after the body has been read:
either a network-level failure, or a status code together with the
Retry-After header value ("" when absent) and the decoded body (JSON
decoding of a 2xx body is modeled as already done). -/
inductive HttpOutcome (β : Type)
  | netErr (msg : String)
  | resp (status : Nat) (retryAfter : String) (body : β)

/-- Result of `doWithRetry`: the returned response-or-error, the list of
sleeps performed (in order, in nanoseconds), and the number of HTTP calls
made. -/
structure RetryTrace (β : Type) where
  result : Except String (Nat × β)
  sleeps : List Int
  calls : Nat

/-- The body of `doWithRetry`'s `for attempt := range maxRetries` loop.
`fuel` is the number of loop iterations left (`maxRetries - attempt`); the
fuel-zero branch corresponds to the code after the loop, which Go marks
unreachable and has return an error.  `oracle` gives each attempt's HTTP
outcome, `jitter` each attempt's `rand.Int64N(backoff/2)` draw. -/
def doWithRetryLoop (oracle : Nat → HttpOutcome β) (jitter : Nat → Int) :
    (fuel : Nat) → (attempt : Nat) → (backoff : Int) → (sleeps : List Int) → RetryTrace β
  | 0, attempt, _, sleeps => ⟨.error "unexpected: exceeded max retries", sleeps, attempt⟩
  | fuel + 1, attempt, backoff, sleeps =>
    match oracle attempt with
    | .netErr m => ⟨.error m, sleeps, attempt + 1⟩
    | .resp status ra body =>
      if status ≠ 429 then ⟨.ok (status, body), sleeps, attempt + 1⟩
      else if attempt = maxRetries - 1 then ⟨.ok (status, body), sleeps, attempt + 1⟩
      else
        let d := parseRetryAfter ra
        let delay := if d < 0 then backoff + jitter attempt else d
        let backoff' := if d < 0 then backoff * 2 else backoff
        if delay = 0 then doWithRetryLoop oracle jitter fuel (attempt + 1) backoff' sleeps
        else doWithRetryLoop oracle jitter fuel (attempt + 1) backoff' (sleeps ++ [delay])

/-- `doWithRetry` sends an HTTP request and retries on 429.  The starting
backoff is `InitialBackoff`, or 2 seconds when that is unset (≤ 0). -/
def doWithRetry (initialBackoff : Int) (oracle : Nat → HttpOutcome β) (jitter : Nat → Int) :
    RetryTrace β :=
  let backoff := if initialBackoff ≤ 0 then 2 * second else initialBackoff
  doWithRetryLoop oracle jitter maxRetries 0 backoff []

/-- Result of a client's SendMessage together with the transport trace. -/
structure SendTrace where
  result : Except SendError MessageResponse
  sleeps : List Int
  calls : Nat

/-- `(*OpenAIClient).SendMessage`: one `doWithRetry` exchange; a non-200
final status is an API error carrying the status; a 200 body is parsed by
`parseResponse`. -/
def OpenAIClient.sendMessage (initialBackoff : Int) (oracle : Nat → HttpOutcome openAIResponse)
    (jitter : Nat → Int) : SendTrace :=
  let t := doWithRetry initialBackoff oracle jitter
  match t.result with
  | .error m => ⟨.error (.netErr m), t.sleeps, t.calls⟩
  | .ok (status, body) =>
    if status ≠ 200 then ⟨.error (.apiError status), t.sleeps, t.calls⟩
    else
      match OpenAIClient.parseResponse body with
      | .error e => ⟨.error e, t.sleeps, t.calls⟩
      | .ok r => ⟨.ok r, t.sleeps, t.calls⟩

/-- `(*AnthropicClient).SendMessage`: a single `p.HTTP.Do` call with no retry
of any kind; every non-200 status — including 429 — is surfaced immediately
as an API error carrying the status.  It never sleeps and always makes
exactly one HTTP call. -/
def AnthropicClient.sendMessage (oracle : Nat → HttpOutcome anthropicResponse) : SendTrace :=
  match oracle 0 with
  | .netErr m => ⟨.error (.netErr m), [], 1⟩
  | .resp status _ body =>
    if status ≠ 200 then ⟨.error (.apiError status), [], 1⟩
    else ⟨.ok (AnthropicClient.parseResponse body), [], 1⟩

end Llm

/-! ## Single-trial runner `runEval` (eval command) -/

namespace EvalCmd

open Llm

/-- `evalCase` from `evals/cases.go`: name, positive-integer tier, prompt and
a pure judge predicate. -/
structure evalCase where
  name : String
  tier : Int
  prompt : String
  judge : String → Bool

/-- `evalConfig` — per-run settings for the eval loop.  Go uses `int`; the
flag validation in `main` rejects values < 1, and for the loop itself a
non-positive bound behaves exactly like 0, so `Nat` is faithful. -/
structure evalConfig where
  maxAttempts : Nat
  maxIters : Nat

/-- `evalResult` (one per trial).  The `ec` back-pointer and the wall-clock
`Duration` / `LLMTime` / `StarlarkTime` fields are elided: the loop only ever
adds elapsed time to them and they play no role in control flow. -/
structure evalResult where
  passed : Bool := false
  attempts : Nat := 0
  score : ℚ := 0
  outputs : List String := []
  tokensIn : Int := 0
  tokensOut : Int := 0
deriving DecidableEq

/-- `responseToHistory` converts an LLM response into the assistant Message
appended to the conversation history (it keeps the full tool-call list). -/
def responseToHistory (resp : MessageResponse) : Message :=
  { role := .assistant, text := resp.text, toolCalls := resp.toolCalls }

/-- `toolResultMessage` — a user message carrying a tool result. -/
def toolResultMessage (toolCallID content : String) (isError : Bool) : Message :=
  { role := .user, toolResult := some ⟨toolCallID, content, isError⟩ }

/-- `nudgeMessage` — a user message asking the LLM to use a tool. -/
def nudgeMessage (text : String) : Message :=
  { role := .user, text := text }

/-- `toolResultWithNudge` — a user message with a (non-error) tool result and
a text nudge, in one composite Message. -/
def toolResultWithNudge (toolCallID content nudge : String) : Message :=
  { role := .user, toolResult := some ⟨toolCallID, content, false⟩, text := nudge }

/-- The nudge sent when the model did not call a tool. -/
def noToolNudge : String :=
  "Please use the provided tool to execute your solution rather than responding with text. Call the tool now."

/-- The corrective nudge sent when the judge rejected the output. -/
def judgeFailNudge : String :=
  "The output did not match the expected result. Please try again with a corrected program."

/-- Outcome of one `callMCPTool` invocation:
`callErr` is a transport failure calling the tool (`callErr != nil`),
`toolErr` a tool-reported error (`toolIsError`), `ok` a successful raw
output. -/
inductive ToolOutcome
  | callErr (msg : String)
  | toolErr (output : String)
  | ok (output : String)

/-- Outcome of one `client.SendMessage` call inside the trial loop:
`fatal` is a transport/parse error (`err != nil` — the code reacts with
`log.Fatalf`), `resp` a successful response. -/
inductive LLMEvent
  | fatal
  | resp (r : MessageResponse)

/-- Result of one iteration of the `runEval` loop body. -/
inductive StepOut
  | fatal
  | ret (r : evalResult)
  | next (messages : List Message) (r : evalResult)
deriving DecidableEq

/-- One iteration of the `runEval` loop body (part_011 lines 706-769),
starting after the `Attempts >= maxAttempts` guard: the LLM call outcome
`ev`, then — when the response carries tool calls — one invocation of the
first tool call through `toolExec`.  `.fatal` models `log.Fatalf` (process
abort); `.ret` models `return result` on a judged pass; `.next` continues
the loop with the updated history and result. -/
def evalStep (maxAttempts : Nat) (judge : String → Bool) (toolExec : ToolCall → ToolOutcome)
    (ev : LLMEvent) (messages : List Message) (r : evalResult) : StepOut :=
  match ev with
  | .fatal => .fatal
  | .resp resp =>
    let r := { r with tokensIn := r.tokensIn + resp.usage.inputTokens,
                      tokensOut := r.tokensOut + resp.usage.outputTokens }
    let messages := messages ++ [responseToHistory resp]
    match resp.toolCalls with
    | [] => .next (messages ++ [nudgeMessage noToolNudge]) r
    | toolCall :: _ =>
      let r := { r with attempts := r.attempts + 1 }
      match toolExec toolCall with
      | .callErr msg =>
        .next (messages ++ [toolResultMessage toolCall.id msg true])
              { r with outputs := r.outputs ++ ["ERROR: " ++ msg] }
      | .toolErr output =>
        .next (messages ++ [toolResultMessage toolCall.id output true])
              { r with outputs := r.outputs ++ ["ERROR: " ++ output] }
      | .ok output =>
        let r := { r with outputs := r.outputs ++ [output] }
        if judge output then
          .ret { r with passed := true, score := 1 / 2 ^ (r.attempts - 1) }
        else if r.attempts < maxAttempts then
          .next (messages ++ [toolResultWithNudge toolCall.id output judgeFailNudge]) r
        else .next messages r

/-- Outcome of a whole trial: `aborted` is `log.Fatalf` (the entire process
exits — no result is recorded and no other trial continues), `done` is a
returned `evalResult`. -/
inductive RunOutcome
  | aborted
  | done (r : evalResult)
deriving DecidableEq

/-- The `for iter := 0; iter < maxIterations; iter++` loop of `runEval`.
`fuel` is `maxIterations - iter`.  Both the fuel running out and the
`Attempts >= maxAttempts` break fall through to `result.Passed = false;
result.Score = 0.0; return result`.  `llm iter` is the outcome of the
iteration's SendMessage call and `toolExec iter` the MCP session's behavior
on that iteration's tool call. -/
def runEvalLoop (maxAttempts : Nat) (judge : String → Bool)
    (toolExec : Nat → ToolCall → ToolOutcome) (llm : Nat → LLMEvent) :
    (fuel : Nat) → (iter : Nat) → List Message → evalResult → RunOutcome
  | 0, _, _, r => .done { r with passed := false, score := 0 }
  | fuel + 1, iter, messages, r =>
    if r.attempts ≥ maxAttempts then .done { r with passed := false, score := 0 }
    else
      match evalStep maxAttempts judge (toolExec iter) (llm iter) messages r with
      | .fatal => .aborted
      | .ret r' => .done r'
      | .next messages' r' => runEvalLoop maxAttempts judge toolExec llm fuel (iter + 1) messages' r'

/-- `runEval`: seeds the history with the case prompt as the first user turn
and runs the bounded loop.  (The fixed system prompt is carried in the
request parameters, not the history, and does not affect the loop.) -/
def runEval (cfg : evalConfig) (ec : evalCase)
    (toolExec : Nat → ToolCall → ToolOutcome) (llm : Nat → LLMEvent) : RunOutcome :=
  runEvalLoop cfg.maxAttempts ec.judge toolExec llm cfg.maxIters 0
    [{ role := .user, text := ec.prompt }] {}

end EvalCmd

/-! ## Go standard library `path.Match` (used by `filterCases`)

Translation of `path/match.go` from the Go standard library (the Go ≥ 1.16
version, where a malformed pattern is reported as `ErrBadPattern` regardless
of the name: on a mismatch the remainder of the pattern is still checked for
syntax errors).  Strings are handled as `List Char`; Go decodes runes, which
for the purposes of matching coincide with `Char`s.  The loops whose
termination is not structural carry a fuel argument; every iteration of each
such loop consumes at least one character of the relevant list, so a fuel of
`length + 1` is always sufficient and the fuel-zero branches are
unreachable. -/

namespace GoPathMatch

/-- The `Scan` loop of `scanChunk`: split the pattern at the first star that
is not inside a `[...]` range; a backslash skips the following character (a
trailing backslash stays in the chunk; `matchChunk` reports it as a bad
pattern). -/
def scanChunkSplit : (inrange : Bool) → List Char → List Char × List Char
  | _, [] => ([], [])
  | inrange, c :: rest =>
    if c = '*' ∧ ¬inrange then ([], c :: rest)
    else if c = '\\' then
      match rest with
      | [] => ([c], [])
      | d :: rest2 =>
        let p := scanChunkSplit inrange rest2
        (c :: d :: p.1, p.2)
    else
      let inrange2 := if c = '[' then true else if c = ']' then false else inrange
      let p := scanChunkSplit inrange2 rest
      (c :: p.1, p.2)

/-- `scanChunk` gets the next segment of the pattern: whether it begins with
one or more stars, the chunk up to the next unescaped star, and the rest. -/
def scanChunk (p : List Char) : Bool × List Char × List Char :=
  let star : Bool := !(p.takeWhile (· = '*')).isEmpty
  let q := scanChunkSplit false (p.dropWhile (· = '*'))
  (star, q.1, q.2)

/-- `getEsc`: parse one (possibly backslash-escaped) character of a `[...]`
range.  Errors on an empty chunk, a leading '-' or ']', a trailing
backslash, or when nothing follows the parsed character. -/
def getEsc : List Char → Except Unit (Char × List Char)
  | [] => .error ()
  | c :: rest =>
    if c = '-' ∨ c = ']' then .error ()
    else
      match (if c = '\\' then rest else c :: rest) with
      | [] => .error ()
      | r :: nchunk => if nchunk = [] then .error () else .ok (r, nchunk)

/-- The range-parsing loop of `matchChunk`'s '[' case.  `r` is the name
character under consideration, `matched` / `nrange` the loop state.  Every
iteration consumes at least one chunk character through `getEsc`, so
`chunk.length + 1` fuel is always enough. -/
def matchRanges (r : Char) : (fuel : Nat) → (chunk : List Char) → (matched : Bool) →
    (nrange : Nat) → Except Unit (Bool × List Char)
  | 0, _, _, _ => .error ()
  | fuel + 1, chunk, matched, nrange =>
    match chunk with
    | ']' :: rest =>
      -- with nrange = 0 Go reaches getEsc, which rejects a leading ']'
      if nrange > 0 then .ok (matched, rest) else .error ()
    | _ =>
      match getEsc chunk with
      | .error _ => .error ()
      | .ok (lo, chunk1) =>
        match chunk1 with
        | [] => .error ()   -- unreachable: getEsc never returns an empty rest
        | c :: rest =>
          if c = '-' then
            match getEsc rest with
            | .error _ => .error ()
            | .ok (hi, chunk2) =>
              matchRanges r fuel chunk2 (matched || (decide (lo ≤ r) && decide (r ≤ hi))) (nrange + 1)
          else
            matchRanges r fuel chunk1 (matched || (decide (lo ≤ r) && decide (r ≤ lo))) (nrange + 1)

/-- `matchChunk`: match `chunk` against the start of `s`.  The `failed` flag
records that the match has already failed while the rest of the chunk is
still checked for well-formedness (this is what makes a malformed pattern an
error independent of the name).  `.ok none` is a well-formed non-match,
`.ok (some rest)` a match leaving `rest` of the name.  Every iteration
consumes at least one chunk character, so `chunk.length + 1` fuel is always
enough. -/
def matchChunkLoop : (fuel : Nat) → (chunk : List Char) → (s : List Char) → (failed : Bool) →
    Except Unit (Option (List Char))
  | 0, _, _, _ => .error ()
  | _ + 1, [], s, failed => if failed then .ok none else .ok (some s)
  | fuel + 1, c :: chunkRest, s, failed0 =>
    let failed := failed0 || s.isEmpty
    if c = '[' then
      -- character class; the decoded rune is irrelevant once failed
      let r : Char := s.headD (Char.ofNat 0xFFFD)
      let s2 := if failed then s else s.tail
      let negChunk : Bool × List Char :=
        match chunkRest with
        | '^' :: t => (true, t)
        | _ => (false, chunkRest)
      match matchRanges r (negChunk.2.length + 1) negChunk.2 false 0 with
      | .error _ => .error ()
      | .ok (matched, chunk2) =>
        matchChunkLoop fuel chunk2 s2 (failed || (matched == negChunk.1))
    else if c = '?' then
      if failed then matchChunkLoop fuel chunkRest s failed
      else
        match s with
        | [] => matchChunkLoop fuel chunkRest [] true   -- unreachable: ¬failed forces s ≠ []
        | sc :: sRest => matchChunkLoop fuel chunkRest sRest (decide (sc = '/'))
    else if c = '\\' then
      match chunkRest with
      | [] => .error ()
      | d :: chunkRest2 =>
        -- fallthrough into the literal-character case with the escaped char
        if failed then matchChunkLoop fuel chunkRest2 s failed
        else
          match s with
          | [] => matchChunkLoop fuel chunkRest2 [] true   -- unreachable as above
          | sc :: sRest => matchChunkLoop fuel chunkRest2 sRest (decide (d ≠ sc))
    else
      if failed then matchChunkLoop fuel chunkRest s failed
      else
        match s with
        | [] => matchChunkLoop fuel chunkRest [] true   -- unreachable as above
        | sc :: sRest => matchChunkLoop fuel chunkRest sRest (decide (c ≠ sc))

/-- The star-backtracking loop of `Match`: try `chunk` at each later
position of `name` without skipping a '/'.  `rest` is the pattern remaining
after the chunk (for the are-we-the-last-chunk check). -/
def matchStarLoop (chunk rest : List Char) : (name : List Char) → Except Unit (Option (List Char))
  | [] => .ok none
  | c :: nameRest =>
    if c = '/' then .ok none
    else
      match matchChunkLoop (chunk.length + 1) chunk nameRest false with
      | .error _ => .error ()
      | .ok (some t) =>
        if rest = [] ∧ t ≠ [] then matchStarLoop chunk rest nameRest
        else .ok (some t)
      | .ok none => matchStarLoop chunk rest nameRest

/-- The trailing validation loop of `Match`: before returning a non-match,
check the remaining pattern is well-formed by running every remaining chunk
against the empty name.  Each iteration strictly shortens the pattern, so
`pattern.length + 1` fuel is always enough. -/
def validateRest : (fuel : Nat) → (pattern : List Char) → Except Unit Unit
  | _, [] => .ok ()
  | 0, _ => .error ()
  | fuel + 1, pattern =>
    let q := scanChunk pattern
    match matchChunkLoop (q.2.1.length + 1) q.2.1 [] false with
    | .error _ => .error ()
    | .ok _ => validateRest fuel q.2.2

/-- Validation followed by the `return false, nil` of a non-match. -/
def finishNoMatch (rest : List Char) : Except Unit Bool :=
  match validateRest (rest.length + 1) rest with
  | .error _ => .error ()
  | .ok _ => .ok false

/-- Go `path.Match`.  The outer `Pattern:` loop consumes at least one
pattern character per iteration, so `pattern.length + 1` fuel is always
enough. -/
def goMatch : (fuel : Nat) → (pattern name : List Char) → Except Unit Bool
  | 0, _, _ => .error ()
  | fuel + 1, pattern, name =>
    match pattern with
    | [] => .ok (decide (name = []))
    | _ :: _ =>
      let q := scanChunk pattern
      let star := q.1
      let chunk := q.2.1
      let rest := q.2.2
      if star ∧ chunk = [] then
        -- a trailing '*' matches the rest of the name unless it contains '/'
        .ok (decide (¬ name.contains '/'))
      else
        match matchChunkLoop (chunk.length + 1) chunk name false with
        | .error _ => .error ()
        | .ok res =>
          let cont : Option (List Char) :=
            match res with
            | some t => if t = [] ∨ rest ≠ [] then some t else none
            | none => none
          match cont with
          | some t => goMatch fuel rest t
          | none =>
            if star then
              match matchStarLoop chunk rest name with
              | .error _ => .error ()
              | .ok (some t) => goMatch fuel rest t
              | .ok none => finishNoMatch rest
            else finishNoMatch rest

/-- `path.Match(pattern, name)` as called by `filterCases`. -/
def pathMatch (pattern name : String) : Except Unit Bool :=
  goMatch (pattern.length + 1) pattern.data name.data

end GoPathMatch

/-! ## Case selection (`evals/filter.go`) -/

namespace EvalsFilter

open EvalCmd (evalCase)

/-- `parseTierSpec` parses "" (all), "N" (single tier), or "N-M" (range).
Splits at the first '-' when one is present; each side goes through
`strconv.Atoi`; an inverted range is an error.  A plain integer N yields
(N, N) with no positivity check. -/
def parseTierSpec (s : String) : Except String (Int × Int) :=
  if s = "" then .ok (0, 0)
  else
    match s.data.findIdx? (· = '-') with
    | some i =>
      match GoStrconv.atoi ⟨s.data.take i⟩ with
      | .error _ => .error ("bad tier range " ++ s)
      | .ok lo =>
        match GoStrconv.atoi ⟨s.data.drop (i + 1)⟩ with
        | .error _ => .error ("bad tier range " ++ s)
        | .ok hi =>
          if lo > hi then .error ("bad tier range " ++ s ++ ": min > max")
          else .ok (lo, hi)
    | none =>
      match GoStrconv.atoi s with
      | .error _ => .error ("bad tier " ++ s)
      | .ok n => .ok (n, n)

/-- The `for _, ec := range all` loop of `filterCases`: skip cases outside
the tier range (when one is active), then — only for cases that survived the
tier filter and only when a pattern is given — consult `path.Match`,
aborting with "bad filter pattern" on a pattern error. -/
def filterLoop (pattern : String) (minTier maxTier : Int) :
    List evalCase → Except String (List evalCase)
  | [] => .ok []
  | ec :: rest =>
    if minTier > 0 ∧ (ec.tier < minTier ∨ ec.tier > maxTier) then
      filterLoop pattern minTier maxTier rest
    else if pattern ≠ "" then
      match GoPathMatch.pathMatch pattern ec.name with
      | .error _ => .error "bad filter pattern"
      | .ok matched =>
        if !matched then filterLoop pattern minTier maxTier rest
        else
          match filterLoop pattern minTier maxTier rest with
          | .error e => .error e
          | .ok out => .ok (ec :: out)
    else
      match filterLoop pattern minTier maxTier rest with
      | .error e => .error e
      | .ok out => .ok (ec :: out)

/-- `filterCases` returns the subset of cases matching the given glob
pattern and tier range, order-preserving; an empty pattern or tier spec
means "match all". -/
def filterCases (all : List evalCase) (pattern tierSpec : String) :
    Except String (List evalCase) :=
  match parseTierSpec tierSpec with
  | .error e => .error e
  | .ok (minTier, maxTier) => filterLoop pattern minTier maxTier all

end EvalsFilter

/-! ## Helper lemmas about the single-trial runner -/

namespace EvalCmd

/-- The diagnostic entry `runEval` records for one tool invocation: the raw
output on success, an "ERROR: "-prefixed text otherwise. -/
def toolLogEntry : ToolOutcome → String
  | .callErr msg => "ERROR: " ++ msg
  | .toolErr output => "ERROR: " ++ output
  | .ok output => output

theorem evalStep_ret_charn {maxA : Nat} {judge : String → Bool} {te : Llm.ToolCall → ToolOutcome}
    {ev : LLMEvent} {ms : List Llm.Message} {r r' : evalResult}
    (h : evalStep maxA judge te ev ms r = .ret r') :
    r'.passed = true ∧ r'.attempts = r.attempts + 1 ∧
    r'.score = 1 / 2 ^ (r'.attempts - 1) ∧ r'.outputs.length = r.outputs.length + 1 := by
  unfold evalStep at h
  rcases ev with _ | resp
  · exact absurd h (by simp)
  · rcases hc : resp.toolCalls with _ | ⟨tc, tcs⟩ <;> simp only [hc] at h
    · exact absurd h (by simp)
    · rcases hte : te tc with msg | output | output <;> simp only [hte] at h
      · exact absurd h (by simp)
      · exact absurd h (by simp)
      · split at h
        · rw [StepOut.ret.injEq] at h
          subst h
          refine ⟨rfl, rfl, ?_, by simp⟩
          simp
        · split at h <;> exact absurd h (by simp)

theorem evalStep_next_charn {maxA : Nat} {judge : String → Bool} {te : Llm.ToolCall → ToolOutcome}
    {ev : LLMEvent} {ms ms' : List Llm.Message} {r r' : evalResult}
    (h : evalStep maxA judge te ev ms r = .next ms' r') :
    r'.passed = r.passed ∧ r.attempts ≤ r'.attempts ∧ r'.attempts ≤ r.attempts + 1 ∧
    r'.attempts + r.outputs.length = r.attempts + r'.outputs.length := by
  unfold evalStep at h
  rcases ev with _ | resp
  · exact absurd h (by simp)
  · rcases hc : resp.toolCalls with _ | ⟨tc, tcs⟩ <;> simp only [hc] at h
    · rw [StepOut.next.injEq] at h
      obtain ⟨-, h⟩ := h
      subst h
      exact ⟨rfl, le_refl _, Nat.le_succ _, rfl⟩
    · rcases hte : te tc with msg | output | output <;> simp only [hte] at h
      · rw [StepOut.next.injEq] at h
        obtain ⟨-, h⟩ := h
        subst h
        refine ⟨rfl, by simp, by simp, by simp; omega⟩
      · rw [StepOut.next.injEq] at h
        obtain ⟨-, h⟩ := h
        subst h
        refine ⟨rfl, by simp, by simp, by simp; omega⟩
      · split at h
        · exact absurd h (by simp)
        · split at h <;>
          · rw [StepOut.next.injEq] at h
            obtain ⟨-, h⟩ := h
            subst h
            refine ⟨rfl, by simp, by simp, by simp; omega⟩

/-- Main loop invariant: starting from a not-yet-passed state whose attempt
count is within bounds and whose outputs list has one entry per attempt,
any completed result keeps `attempts ≤ maxAttempts`, pairs `passed = false`
with score 0, pairs `passed = true` with `attempts ≥ 1` and the halving
score, and has exactly one recorded output per attempt. -/
theorem runEvalLoop_inv (maxA : Nat) (judge : String → Bool)
    (te : Nat → Llm.ToolCall → ToolOutcome) (llm : Nat → LLMEvent) :
    ∀ (fuel iter : Nat) (ms : List Llm.Message) (r : evalResult),
      r.attempts ≤ maxA → r.passed = false → r.outputs.length = r.attempts →
      ∀ r', runEvalLoop maxA judge te llm fuel iter ms r = .done r' →
        r'.attempts ≤ maxA ∧
        (r'.passed = false → r'.score = 0) ∧
        (r'.passed = true → 1 ≤ r'.attempts ∧ r'.score = 1 / 2 ^ (r'.attempts - 1)) ∧
        r'.outputs.length = r'.attempts := by
  intro fuel
  induction fuel with
  | zero =>
    intro iter ms r hA hP hO r' h
    simp only [runEvalLoop] at h
    rw [RunOutcome.done.injEq] at h
    subst h
    exact ⟨hA, fun _ => rfl, fun hpt => by simp at hpt, hO⟩
  | succ fuel ih =>
    intro iter ms r hA hP hO r' h
    simp only [runEvalLoop] at h
    by_cases hge : r.attempts ≥ maxA
    · rw [if_pos hge, RunOutcome.done.injEq] at h
      subst h
      exact ⟨hA, fun _ => rfl, fun hpt => by simp at hpt, hO⟩
    · rw [if_neg hge] at h
      rcases hstep : evalStep maxA judge (te iter) (llm iter) ms r with _ | r1 | ⟨ms1, r1⟩ <;>
        rw [hstep] at h
      · exact absurd h (by simp)
      · rw [RunOutcome.done.injEq] at h
        subst h
        obtain ⟨h1, h2, h3, h4⟩ := evalStep_ret_charn hstep
        refine ⟨by omega, ?_, fun _ => ⟨by omega, h3⟩, by omega⟩
        intro hpf
        rw [h1] at hpf
        exact absurd hpf (by simp)
      · obtain ⟨h1, h2, h3, h4⟩ := evalStep_next_charn hstep
        exact ih (iter + 1) ms1 r1 (by omega) (h1.trans hP) (by omega) r' h

end EvalCmd

namespace EvalCmd

/-- The attempt count recorded in the state a step produced (0 for the
process-abort outcome, which carries no state). -/
def StepOut.attemptsAfter : StepOut → Nat
  | .fatal => 0
  | .ret r => r.attempts
  | .next _ r => r.attempts

/-- The outputs list recorded in the state a step produced ([] for the
process-abort outcome, which carries no state). -/
def StepOut.outputsAfter : StepOut → List String
  | .fatal => []
  | .ret r => r.outputs
  | .next _ r => r.outputs

/-- The no-tool-call step: append the assistant turn and a nudge, update the
token counters, leave attempts and outputs untouched. -/
theorem evalStep_noTool (maxA : Nat) (judge : String → Bool) (te : Llm.ToolCall → ToolOutcome)
    (resp : Llm.MessageResponse) (ms : List Llm.Message) (r : evalResult)
    (hc : resp.toolCalls = []) :
    evalStep maxA judge te (.resp resp) ms r =
      .next (ms ++ [responseToHistory resp, nudgeMessage noToolNudge])
        { r with tokensIn := r.tokensIn + resp.usage.inputTokens,
                 tokensOut := r.tokensOut + resp.usage.outputTokens } := by
  unfold evalStep
  simp [hc]

/-- The tool-call step never aborts, consumes exactly one attempt and
appends exactly one entry — the raw output or its "ERROR: "-prefixed form —
to `outputs`, whatever the outcome of invoking the first tool call. -/
theorem evalStep_tool_charn (maxA : Nat) (judge : String → Bool) (te : Llm.ToolCall → ToolOutcome)
    (resp : Llm.MessageResponse) (tc : Llm.ToolCall) (tcs : List Llm.ToolCall)
    (ms : List Llm.Message) (r : evalResult) (hc : resp.toolCalls = tc :: tcs) :
    evalStep maxA judge te (.resp resp) ms r ≠ .fatal ∧
    (evalStep maxA judge te (.resp resp) ms r).attemptsAfter = r.attempts + 1 ∧
    (evalStep maxA judge te (.resp resp) ms r).outputsAfter =
      r.outputs ++ [toolLogEntry (te tc)] := by
  unfold evalStep
  simp only [hc]
  rcases hte : te tc with msg | output | output <;>
    simp only [hte, toolLogEntry]
  · exact ⟨by simp, by simp [StepOut.attemptsAfter], by simp [StepOut.outputsAfter]⟩
  · exact ⟨by simp, by simp [StepOut.attemptsAfter], by simp [StepOut.outputsAfter]⟩
  · by_cases hj : judge output = true
    · rw [if_pos hj]
      exact ⟨by simp, by simp [StepOut.attemptsAfter], by simp [StepOut.outputsAfter]⟩
    · rw [if_neg hj]
      refine ⟨?_, ?_, ?_⟩
      · split <;> simp
      · rw [apply_ite StepOut.attemptsAfter]
        split <;> simp [StepOut.attemptsAfter]
      · rw [apply_ite StepOut.outputsAfter]
        split <;> simp [StepOut.outputsAfter]

end EvalCmd

/-- C2: for every completed trial, `0 ≤ attempts ≤ maxAttempts` (`attempts`
is a `Nat`, so the lower bound is intrinsic); `passed = false` forces
`score = 0`; `passed = true` forces `attempts ∈ [1, maxAttempts]` and
`score = 2^-(attempts-1)` — first-attempt success scores 1, halving per
extra attempt.  (The Go float64 score is modeled in ℚ, where these dyadic
values are exact.) -/
theorem c2_completed_trial_bounds (cfg : EvalCmd.evalConfig) (ec : EvalCmd.evalCase)
    (te : Nat → Llm.ToolCall → EvalCmd.ToolOutcome) (llm : Nat → EvalCmd.LLMEvent)
    (r : EvalCmd.evalResult) (h : EvalCmd.runEval cfg ec te llm = .done r) :
    r.attempts ≤ cfg.maxAttempts ∧
    (r.passed = false → r.score = 0) ∧
    (r.passed = true → 1 ≤ r.attempts ∧ r.attempts ≤ cfg.maxAttempts ∧
      r.score = 1 / 2 ^ (r.attempts - 1)) := by
  obtain ⟨h1, h2, h3, -⟩ :=
    EvalCmd.runEvalLoop_inv cfg.maxAttempts ec.judge te llm cfg.maxIters 0 _ {}
      (Nat.zero_le _) rfl rfl r h
  exact ⟨h1, h2, fun hp => ⟨(h3 hp).1, h1, (h3 hp).2⟩⟩

/-- A concrete first-attempt-pass trial used to witness C2 (spec Scenario A). -/
def c2wCase : EvalCmd.evalCase :=
  { name := "fizzbuzz", tier := 2, prompt := "p", judge := fun s => s == "42" }

def c2wToolExec : Nat → Llm.ToolCall → EvalCmd.ToolOutcome := fun _ _ => .ok "42"

def c2wLLM : Nat → EvalCmd.LLMEvent :=
  fun _ => .resp { text := "", toolCalls := [⟨"id1", "t", "{}"⟩], usage := ⟨10, 5⟩ }

def c2wResult : EvalCmd.evalResult :=
  { passed := true, attempts := 1, score := 1, outputs := ["42"], tokensIn := 10, tokensOut := 5 }

/-- Witness for C2: the concrete trial completes with
`passed = true, attempts = 1, score = 1`, and the theorem's conclusions are
instantiated on it. -/
theorem c2_witness :
    EvalCmd.runEval ⟨3, 6⟩ c2wCase c2wToolExec c2wLLM = .done c2wResult ∧
    (c2wResult.attempts ≤ 3 ∧
     (c2wResult.passed = false → c2wResult.score = 0) ∧
     (c2wResult.passed = true → 1 ≤ c2wResult.attempts ∧ c2wResult.attempts ≤ 3 ∧
       c2wResult.score = 1 / 2 ^ (c2wResult.attempts - 1))) := by
  have hd : EvalCmd.runEval ⟨3, 6⟩ c2wCase c2wToolExec c2wLLM = .done c2wResult := by
    norm_num [EvalCmd.runEval, EvalCmd.runEvalLoop, EvalCmd.evalStep, EvalCmd.responseToHistory,
      c2wCase, c2wToolExec, c2wLLM, c2wResult]
  exact ⟨hd, c2_completed_trial_bounds ⟨3, 6⟩ c2wCase c2wToolExec c2wLLM c2wResult hd⟩

/-- C9: for every completed trial the outputs list has exactly one entry per
attempt; each invocation of the (first) tool call consumes exactly one
attempt and appends exactly one entry — the raw output on success, the
"ERROR: "-prefixed text on a collaborator or tool-reported error — and a
no-tool-call turn modifies neither. -/
theorem c9_outputs_track_attempts :
    (∀ (cfg : EvalCmd.evalConfig) (ec : EvalCmd.evalCase)
       (te : Nat → Llm.ToolCall → EvalCmd.ToolOutcome) (llm : Nat → EvalCmd.LLMEvent)
       (r : EvalCmd.evalResult),
       EvalCmd.runEval cfg ec te llm = .done r → r.outputs.length = r.attempts) ∧
    (∀ (maxA : Nat) (judge : String → Bool) (te : Llm.ToolCall → EvalCmd.ToolOutcome)
       (resp : Llm.MessageResponse) (tc : Llm.ToolCall) (tcs : List Llm.ToolCall)
       (ms : List Llm.Message) (r : EvalCmd.evalResult), resp.toolCalls = tc :: tcs →
       EvalCmd.evalStep maxA judge te (.resp resp) ms r ≠ .fatal ∧
       (EvalCmd.evalStep maxA judge te (.resp resp) ms r).attemptsAfter = r.attempts + 1 ∧
       (EvalCmd.evalStep maxA judge te (.resp resp) ms r).outputsAfter =
         r.outputs ++ [EvalCmd.toolLogEntry (te tc)]) ∧
    (∀ (maxA : Nat) (judge : String → Bool) (te : Llm.ToolCall → EvalCmd.ToolOutcome)
       (resp : Llm.MessageResponse) (ms : List Llm.Message) (r : EvalCmd.evalResult),
       resp.toolCalls = [] →
       (EvalCmd.evalStep maxA judge te (.resp resp) ms r).attemptsAfter = r.attempts ∧
       (EvalCmd.evalStep maxA judge te (.resp resp) ms r).outputsAfter = r.outputs) := by
  refine ⟨?_, ?_, ?_⟩
  · intro cfg ec te llm r h
    exact (EvalCmd.runEvalLoop_inv cfg.maxAttempts ec.judge te llm cfg.maxIters 0 _ {}
      (Nat.zero_le _) rfl rfl r h).2.2.2
  · intro maxA judge te resp tc tcs ms r hc
    exact EvalCmd.evalStep_tool_charn maxA judge te resp tc tcs ms r hc
  · intro maxA judge te resp ms r hc
    rw [EvalCmd.evalStep_noTool maxA judge te resp ms r hc]
    exact ⟨rfl, rfl⟩

/-- A concrete trial for the C9 witness: one tool call whose output the
judge rejects, `maxAttempts = 1`, hence a completed failing trial with one
output for its one attempt. -/
def c9wCase : EvalCmd.evalCase :=
  { name := "reverse_string", tier := 1, prompt := "p", judge := fun _ => false }

def c9wLLM : Nat → EvalCmd.LLMEvent :=
  fun _ => .resp { text := "", toolCalls := [⟨"id9", "t", "{}"⟩], usage := ⟨1, 1⟩ }

def c9wResult : EvalCmd.evalResult :=
  { passed := false, attempts := 1, score := 0, outputs := ["41"], tokensIn := 1, tokensOut := 1 }

/-- Witness for C9: the theorem's parts instantiated at concrete inputs,
hypotheses discharged by computation. -/
theorem c9_witness :
    (EvalCmd.runEval ⟨1, 1⟩ c9wCase (fun _ _ => .ok "41") c9wLLM = .done c9wResult) ∧
    c9wResult.outputs.length = c9wResult.attempts ∧
    (EvalCmd.evalStep 3 (fun _ => false) (fun _ => .callErr "boom")
        (.resp { text := "", toolCalls := [⟨"id9", "t", "{}"⟩], usage := ⟨1, 1⟩ }) []
        {}).outputsAfter = [] ++ ["ERROR: " ++ "boom"] := by
  have hd : EvalCmd.runEval ⟨1, 1⟩ c9wCase (fun _ _ => .ok "41") c9wLLM = .done c9wResult := by
    decide
  refine ⟨hd, c9_outputs_track_attempts.1 ⟨1, 1⟩ c9wCase (fun _ _ => .ok "41") c9wLLM c9wResult hd, ?_⟩
  exact (c9_outputs_track_attempts.2.1 3 (fun _ => false) (fun _ => .callErr "boom")
    { text := "", toolCalls := [⟨"id9", "t", "{}"⟩], usage := ⟨1, 1⟩ } ⟨"id9", "t", "{}"⟩ [] [] {} rfl).2.2

/-- C7: within a single trial, (a) a model response with no tool call
appends the assistant turn plus a nudge message and leaves the attempt
counter untouched; (b) such a turn consumes exactly one iteration of the
loop; (c) only the first tool call of a response is invoked — the step
result is unchanged under any modification of the tool's behavior on other
calls; (d) invoking the tool consumes exactly one attempt regardless of
whether the invocation succeeds, reports a tool error, or fails at the
collaborator transport. -/
theorem c7_turn_semantics :
    (∀ (maxA : Nat) (judge : String → Bool) (te : Llm.ToolCall → EvalCmd.ToolOutcome)
       (resp : Llm.MessageResponse) (ms : List Llm.Message) (r : EvalCmd.evalResult),
       resp.toolCalls = [] →
       EvalCmd.evalStep maxA judge te (.resp resp) ms r =
         .next (ms ++ [EvalCmd.responseToHistory resp, EvalCmd.nudgeMessage EvalCmd.noToolNudge])
           { r with tokensIn := r.tokensIn + resp.usage.inputTokens,
                    tokensOut := r.tokensOut + resp.usage.outputTokens }) ∧
    (∀ (maxA : Nat) (judge : String → Bool) (te : Nat → Llm.ToolCall → EvalCmd.ToolOutcome)
       (llm : Nat → EvalCmd.LLMEvent) (fuel iter : Nat) (ms : List Llm.Message)
       (r : EvalCmd.evalResult) (resp : Llm.MessageResponse),
       r.attempts < maxA → llm iter = .resp resp → resp.toolCalls = [] →
       EvalCmd.runEvalLoop maxA judge te llm (fuel + 1) iter ms r =
         EvalCmd.runEvalLoop maxA judge te llm fuel (iter + 1)
           (ms ++ [EvalCmd.responseToHistory resp, EvalCmd.nudgeMessage EvalCmd.noToolNudge])
           { r with tokensIn := r.tokensIn + resp.usage.inputTokens,
                    tokensOut := r.tokensOut + resp.usage.outputTokens }) ∧
    (∀ (maxA : Nat) (judge : String → Bool) (te te' : Llm.ToolCall → EvalCmd.ToolOutcome)
       (resp : Llm.MessageResponse) (tc : Llm.ToolCall) (tcs : List Llm.ToolCall)
       (ms : List Llm.Message) (r : EvalCmd.evalResult),
       resp.toolCalls = tc :: tcs → te tc = te' tc →
       EvalCmd.evalStep maxA judge te (.resp resp) ms r =
         EvalCmd.evalStep maxA judge te' (.resp resp) ms r) ∧
    (∀ (maxA : Nat) (judge : String → Bool) (te : Llm.ToolCall → EvalCmd.ToolOutcome)
       (resp : Llm.MessageResponse) (tc : Llm.ToolCall) (tcs : List Llm.ToolCall)
       (ms : List Llm.Message) (r : EvalCmd.evalResult), resp.toolCalls = tc :: tcs →
       EvalCmd.evalStep maxA judge te (.resp resp) ms r ≠ .fatal ∧
       (EvalCmd.evalStep maxA judge te (.resp resp) ms r).attemptsAfter = r.attempts + 1) := by
  refine ⟨EvalCmd.evalStep_noTool, ?_, ?_, ?_⟩
  · intro maxA judge te llm fuel iter ms r resp hlt hllm hc
    conv_lhs => rw [EvalCmd.runEvalLoop]
    rw [if_neg (by omega), hllm, EvalCmd.evalStep_noTool maxA judge (te iter) resp ms r hc]
  · intro maxA judge te te' resp tc tcs ms r hc hte
    unfold EvalCmd.evalStep
    simp only [hc, hte]
  · intro maxA judge te resp tc tcs ms r hc
    obtain ⟨h1, h2, -⟩ := EvalCmd.evalStep_tool_charn maxA judge te resp tc tcs ms r hc
    exact ⟨h1, h2⟩

/-- Witness for C7: parts (b) and (d) instantiated at concrete inputs, all
hypotheses discharged by computation. -/
theorem c7_witness :
    (EvalCmd.runEvalLoop 3 (fun _ => false) (fun _ _ => .ok "x")
        (fun _ => .resp { text := "t", toolCalls := [], usage := ⟨1, 2⟩ }) 6 0 [] {} =
      EvalCmd.runEvalLoop 3 (fun _ => false) (fun _ _ => .ok "x")
        (fun _ => .resp { text := "t", toolCalls := [], usage := ⟨1, 2⟩ }) 5 1
        ([] ++ [EvalCmd.responseToHistory { text := "t", toolCalls := [], usage := ⟨1, 2⟩ },
                EvalCmd.nudgeMessage EvalCmd.noToolNudge])
        { ({} : EvalCmd.evalResult) with
            tokensIn := ({} : EvalCmd.evalResult).tokensIn + 1,
            tokensOut := ({} : EvalCmd.evalResult).tokensOut + 2 }) ∧
    (EvalCmd.evalStep 3 (fun _ => false) (fun _ => .toolErr "bad")
        (.resp { text := "", toolCalls := [⟨"id7", "t", "{}"⟩], usage := ⟨1, 1⟩ }) []
        {}).attemptsAfter = ({} : EvalCmd.evalResult).attempts + 1 := by
  constructor
  · exact c7_turn_semantics.2.1 3 (fun _ => false) (fun _ _ => .ok "x")
      (fun _ => .resp { text := "t", toolCalls := [], usage := ⟨1, 2⟩ }) 5 0 [] {}
      { text := "t", toolCalls := [], usage := ⟨1, 2⟩ } (by decide) rfl rfl
  · exact (c7_turn_semantics.2.2.2 3 (fun _ => false) (fun _ => .toolErr "bad")
      { text := "", toolCalls := [⟨"id7", "t", "{}"⟩], usage := ⟨1, 1⟩ } ⟨"id7", "t", "{}"⟩ [] []
      {} rfl).2

/-- Counterexample for C1.  The claim asserts that a transport/parse error
from the provider client is a hard failure of that trial only — the trial
completes with `passed = false, score = 0` and the run continues.  In the
code (`runEval`, part_011 lines 713-718) the error branch calls
`log.Fatalf`, which terminates the whole process: at this concrete input the
trial produces the process-abort outcome and no completed result at all. -/
theorem c1_counterexample :
    EvalCmd.runEval ⟨3, 6⟩
      { name := "fizzbuzz", tier := 2, prompt := "p", judge := fun _ => true }
      (fun _ _ => .ok "42") (fun _ => .fatal) = .aborted ∧
    ¬ ∃ r : EvalCmd.evalResult,
      EvalCmd.runEval ⟨3, 6⟩
        { name := "fizzbuzz", tier := 2, prompt := "p", judge := fun _ => true }
        (fun _ _ => .ok "42") (fun _ => .fatal) = .done r ∧
      r.passed = false ∧ r.score = 0 := by
  refine ⟨rfl, ?_⟩
  rintro ⟨r, hr, -, -⟩
  have h : EvalCmd.RunOutcome.aborted = EvalCmd.RunOutcome.done r := hr
  exact EvalCmd.RunOutcome.noConfusion h

/-- C1 (amended): a transport or parse error from the provider client during
a trial is not isolated to that trial — `runEval` reacts with `log.Fatalf`,
aborting the entire process, so no result is recorded for the trial and the
rest of the run's trials do not continue.  Step level: the error outcome is
the abort outcome; run level: a trial whose first model call errors aborts
the process (whenever the configured bounds admit at least one iteration). -/
theorem c1_fatal_aborts_process :
    (∀ (maxA : Nat) (judge : String → Bool) (te : Llm.ToolCall → EvalCmd.ToolOutcome)
       (ms : List Llm.Message) (r : EvalCmd.evalResult),
       EvalCmd.evalStep maxA judge te .fatal ms r = .fatal) ∧
    (∀ (cfg : EvalCmd.evalConfig) (ec : EvalCmd.evalCase)
       (te : Nat → Llm.ToolCall → EvalCmd.ToolOutcome) (llm : Nat → EvalCmd.LLMEvent),
       1 ≤ cfg.maxAttempts → 1 ≤ cfg.maxIters → llm 0 = .fatal →
       EvalCmd.runEval cfg ec te llm = .aborted) := by
  refine ⟨fun _ _ _ _ _ => rfl, ?_⟩
  intro cfg ec te llm hA hI h0
  unfold EvalCmd.runEval
  rcases hIters : cfg.maxIters with _ | n
  · omega
  · rw [EvalCmd.runEvalLoop, if_neg (by simp; omega), h0]
    rfl

/-- Witness for C1's amended theorem at a concrete configuration. -/
theorem c1_witness :
    EvalCmd.runEval ⟨3, 6⟩
      { name := "matrix_multiply", tier := 4, prompt := "p", judge := fun _ => true }
      (fun _ _ => .ok "x") (fun _ => .fatal) = .aborted :=
  c1_fatal_aborts_process.2 ⟨3, 6⟩
    { name := "matrix_multiply", tier := 4, prompt := "p", judge := fun _ => true }
    (fun _ _ => .ok "x") (fun _ => .fatal) (by decide) (by decide) rfl

/-- C4: a composite internal message — a tool result together with nudge
text (and, being a user message, no tool calls) — fans out to exactly two
wire messages `[tool-role, user-role]` in the role-message (OpenAI) adapter,
and to exactly one wire message whose content is the two blocks
`[tool_result, text]` in the block-style (Anthropic) adapter. -/
theorem c4_composite_fanout (m : Llm.Message) (tr : Llm.ToolResult)
    (htr : m.toolResult = some tr) (htext : m.text ≠ "") (hcalls : m.toolCalls = []) :
    Llm.toOpenAIMessages m =
      [{ role := "tool", content := tr.content, toolCallID := tr.toolCallID },
       { role := "user", content := m.text }] ∧
    Llm.toAnthropicMessage m =
      { role := m.role.toWire,
        content := [.toolResult tr.toolCallID tr.content tr.isError, .text m.text] } := by
  constructor
  · unfold Llm.toOpenAIMessages
    simp [htr, htext, hcalls]
  · unfold Llm.toAnthropicMessage
    simp [htr, htext, hcalls]

/-- Witness for C4 at a concrete composite message. -/
theorem c4_witness :
    Llm.toOpenAIMessages
      { role := .user, text := "try again",
        toolResult := some ⟨"call_1", "out", false⟩ } =
      [{ role := "tool", content := "out", toolCallID := "call_1" },
       { role := "user", content := "try again" }] ∧
    Llm.toAnthropicMessage
      { role := .user, text := "try again",
        toolResult := some ⟨"call_1", "out", false⟩ } =
      { role := "user",
        content := [.toolResult "call_1" "out" false, .text "try again"] } :=
  c4_composite_fanout
    { role := .user, text := "try again", toolResult := some ⟨"call_1", "out", false⟩ }
    ⟨"call_1", "out", false⟩ rfl (by decide) rfl

/-- Counterexample for C5.  The claim asserts that for BOTH adapter
families a response with zero actionable content is a hard parse error.
The block-style (Anthropic) family's `parseResponse` has no error outcome at
all: on a 200 response with an empty content-block list, `SendMessage`
returns — with no error — exactly the empty `MessageResponse` the claim says
it must not return. -/
theorem c5_counterexample :
    Llm.AnthropicClient.sendMessage
      (fun _ => .resp 200 "" { content := [], usage := ⟨7, 9⟩ }) =
      ⟨.ok { text := "", toolCalls := [], usage := ⟨7, 9⟩ }, [], 1⟩ := by
  rfl

/-- C5 (amended): only the role-message (OpenAI) family treats zero
actionable content as a hard parse error; the block-style (Anthropic)
family's parse cannot fail and maps an empty content-block list to an empty
`MessageResponse` that still carries the usage counters. -/
theorem c5_empty_content_parse :
    (∀ u : Llm.openAIUsage,
       Llm.OpenAIClient.parseResponse { choices := [], usage := u } =
         .error (.parseError "no choices in response")) ∧
    (∀ u : Llm.anthropicUsage,
       Llm.AnthropicClient.parseResponse { content := [], usage := u } =
         { text := "", toolCalls := [],
           usage := ⟨u.inputTokens, u.outputTokens⟩ }) := by
  exact ⟨fun u => rfl, fun u => rfl⟩

namespace EvalsFilter

/-- With an empty pattern and no active tier bound (`minTier ≤ 0`) the
selection loop keeps every case. -/
theorem filterLoop_matchall (minT maxT : Int) (hm : minT ≤ 0) :
    ∀ cs : List EvalCmd.evalCase, filterLoop "" minT maxT cs = .ok cs := by
  intro cs
  induction cs with
  | nil => rfl
  | cons ec rest ih =>
    unfold filterLoop
    rw [if_neg (fun hcon => absurd hcon.1 (by omega)), if_neg (by simp), ih]

end EvalsFilter

/-- Counterexample for C6.  The claim asserts that the spec `"0"` is a
configuration error because tiers must be ≥ 1.  `parseTierSpec` in
`evals/filter.go` runs `"0"` through `strconv.Atoi` with no positivity
check: it returns `(0, 0)` with no error, and `filterCases` then treats
`minTier = 0` as "no tier filter", i.e. `"0"` behaves as match-all. -/
theorem c6_counterexample :
    EvalsFilter.parseTierSpec "0" = .ok (0, 0) ∧
    EvalsFilter.filterCases
      [{ name := "fizzbuzz", tier := 2, prompt := "", judge := fun _ => false }] "" "0" =
      .ok [{ name := "fizzbuzz", tier := 2, prompt := "", judge := fun _ => false }] := by
  exact ⟨rfl, rfl⟩

/-- C6 (amended): tier-spec parsing satisfies `"" ↦ (0,0)` (match-all, no
error), `"3" ↦ (3,3)`, `"1-4" ↦ (1,4)`, `"4-1"` and `"abc"` are errors;
but `"0"` is NOT an error — it parses to `(0,0)`, which `filterCases`
treats as match-all.  Every spec that `parseTierSpec` does reject is
surfaced by `filterCases` as a configuration error (which `main` checks
before any trial runs). -/
theorem c6_tier_spec_semantics :
    EvalsFilter.parseTierSpec "" = .ok (0, 0) ∧
    EvalsFilter.parseTierSpec "3" = .ok (3, 3) ∧
    EvalsFilter.parseTierSpec "1-4" = .ok (1, 4) ∧
    EvalsFilter.parseTierSpec "0" = .ok (0, 0) ∧
    (∀ cs : List EvalCmd.evalCase, EvalsFilter.filterCases cs "" "" = .ok cs) ∧
    (∀ cs : List EvalCmd.evalCase, EvalsFilter.filterCases cs "" "0" = .ok cs) ∧
    EvalsFilter.parseTierSpec "4-1" = .error "bad tier range 4-1: min > max" ∧
    EvalsFilter.parseTierSpec "abc" = .error "bad tier abc" ∧
    (∀ (cs : List EvalCmd.evalCase) (pattern spec e : String),
      EvalsFilter.parseTierSpec spec = .error e →
      EvalsFilter.filterCases cs pattern spec = .error e) := by
  refine ⟨rfl, rfl, rfl, rfl, ?_, ?_, rfl, rfl, ?_⟩
  · intro cs
    unfold EvalsFilter.filterCases
    rw [show EvalsFilter.parseTierSpec "" = .ok (0, 0) from rfl]
    exact EvalsFilter.filterLoop_matchall 0 0 (by omega) cs
  · intro cs
    unfold EvalsFilter.filterCases
    rw [show EvalsFilter.parseTierSpec "0" = .ok (0, 0) from rfl]
    exact EvalsFilter.filterLoop_matchall 0 0 (by omega) cs
  · intro cs pattern spec e h
    unfold EvalsFilter.filterCases
    rw [h]

/-- Witness for C6's amended theorem: the error-propagation part applied at
the concrete malformed spec `"abc"`. -/
theorem c6_witness :
    EvalsFilter.parseTierSpec "abc" = .error "bad tier abc" ∧
    EvalsFilter.filterCases
      [{ name := "fizzbuzz", tier := 2, prompt := "", judge := fun _ => false }]
      "*matrix*" "abc" = .error "bad tier abc" :=
  ⟨rfl, c6_tier_spec_semantics.2.2.2.2.2.2.2.2
    [{ name := "fizzbuzz", tier := 2, prompt := "", judge := fun _ => false }]
    "*matrix*" "abc" "bad tier abc" rfl⟩

namespace Llm

/-- A non-429 response ends `doWithRetry` at once: it is returned as-is
after this attempt's single HTTP call, with no further sleep. -/
theorem retryLoop_non429 {β : Type} (oracle : Nat → HttpOutcome β) (jitter : Nat → Int)
    (fuel attempt : Nat) (backoff : Int) (sleeps : List Int) (status : Nat) (ra : String)
    (body : β) (ho : oracle attempt = .resp status ra body) (hs : status ≠ 429) :
    doWithRetryLoop oracle jitter (fuel + 1) attempt backoff sleeps =
      ⟨.ok (status, body), sleeps, attempt + 1⟩ := by
  simp only [doWithRetryLoop, ho]
  rw [if_pos hs]

/-- A 429 on the final attempt is returned as-is (the caller turns it into
the terminal error). -/
theorem retryLoop_429_last {β : Type} (oracle : Nat → HttpOutcome β) (jitter : Nat → Int)
    (fuel attempt : Nat) (backoff : Int) (sleeps : List Int) (ra : String) (body : β)
    (ho : oracle attempt = .resp 429 ra body) (hlast : attempt = maxRetries - 1) :
    doWithRetryLoop oracle jitter (fuel + 1) attempt backoff sleeps =
      ⟨.ok (429, body), sleeps, attempt + 1⟩ := by
  simp only [doWithRetryLoop, ho]
  rw [if_neg (by simp), if_pos hlast]

/-- A 429 whose Retry-After parses to 0 retries immediately: no sleep is
recorded and the backoff is left unchanged. -/
theorem retryLoop_429_zero {β : Type} (oracle : Nat → HttpOutcome β) (jitter : Nat → Int)
    (fuel attempt : Nat) (backoff : Int) (sleeps : List Int) (ra : String) (body : β)
    (ho : oracle attempt = .resp 429 ra body) (hlast : attempt ≠ maxRetries - 1)
    (hra : parseRetryAfter ra = 0) :
    doWithRetryLoop oracle jitter (fuel + 1) attempt backoff sleeps =
      doWithRetryLoop oracle jitter fuel (attempt + 1) backoff sleeps := by
  simp only [doWithRetryLoop, ho]
  rw [if_neg (by simp), if_neg hlast]
  simp only [hra]
  norm_num

/-- A 429 whose Retry-After parses to a positive value sleeps exactly that
long, leaving the backoff unchanged. -/
theorem retryLoop_429_positive {β : Type} (oracle : Nat → HttpOutcome β) (jitter : Nat → Int)
    (fuel attempt : Nat) (backoff : Int) (sleeps : List Int) (ra : String) (body : β)
    (ho : oracle attempt = .resp 429 ra body) (hlast : attempt ≠ maxRetries - 1)
    (hpos : 0 < parseRetryAfter ra) :
    doWithRetryLoop oracle jitter (fuel + 1) attempt backoff sleeps =
      doWithRetryLoop oracle jitter fuel (attempt + 1) backoff
        (sleeps ++ [parseRetryAfter ra]) := by
  simp only [doWithRetryLoop, ho]
  rw [if_neg (by simp), if_neg hlast]
  simp only [if_neg (show ¬ parseRetryAfter ra < 0 by omega)]
  rw [if_neg (by omega)]

/-- A 429 whose Retry-After is absent or unparseable (sentinel -1) sleeps
`backoff + jitter` and doubles the backoff. -/
theorem retryLoop_429_absent {β : Type} (oracle : Nat → HttpOutcome β) (jitter : Nat → Int)
    (fuel attempt : Nat) (backoff : Int) (sleeps : List Int) (ra : String) (body : β)
    (ho : oracle attempt = .resp 429 ra body) (hlast : attempt ≠ maxRetries - 1)
    (hra : parseRetryAfter ra = -1) (hb : 0 < backoff) (hj : 0 ≤ jitter attempt) :
    doWithRetryLoop oracle jitter (fuel + 1) attempt backoff sleeps =
      doWithRetryLoop oracle jitter fuel (attempt + 1) (backoff * 2)
        (sleeps ++ [backoff + jitter attempt]) := by
  simp only [doWithRetryLoop, ho]
  rw [if_neg (by simp), if_neg hlast]
  simp only [hra, if_pos (show (-1 : Int) < 0 by omega)]
  rw [if_neg (by omega)]

/-- Exhausting all `maxRetries` attempts on ceaseless 429s makes exactly
`maxRetries` HTTP calls and hands the last 429 response back. -/
theorem retryLoop_all429 {β : Type} (oracle : Nat → HttpOutcome β) (jitter : Nat → Int)
    (h : ∀ k, ∃ ra b, oracle k = .resp 429 ra b) :
    ∀ (fuel attempt : Nat) (backoff : Int) (sleeps : List Int),
      fuel + attempt = maxRetries → 0 < fuel →
      ∃ b sl, doWithRetryLoop oracle jitter fuel attempt backoff sleeps =
        ⟨.ok (429, b), sl, maxRetries⟩ := by
  have h8 : maxRetries = 8 := rfl
  intro fuel
  induction fuel with
  | zero => intro attempt backoff sleeps hfa hpos; omega
  | succ f ih =>
    intro attempt backoff sleeps hfa hpos
    obtain ⟨ra, b, ho⟩ := h attempt
    rcases Nat.eq_zero_or_pos f with hf | hf
    · subst hf
      have hlast : attempt = maxRetries - 1 := by omega
      refine ⟨b, sleeps, ?_⟩
      rw [retryLoop_429_last oracle jitter 0 attempt backoff sleeps ra b ho hlast]
      have h7 : attempt + 1 = maxRetries := by omega
      rw [h7]
    · have hlast : attempt ≠ maxRetries - 1 := by omega
      simp only [doWithRetryLoop, ho]
      rw [if_neg (by simp), if_neg hlast]
      by_cases hz : (if parseRetryAfter ra < 0 then backoff + jitter attempt
          else parseRetryAfter ra) = 0
      · rw [if_pos hz]
        exact ih (attempt + 1) _ _ (by omega) hf
      · rw [if_neg hz]
        exact ih (attempt + 1) _ _ (by omega) hf

/-- A run of `n` header-less 429s followed by a non-429 response: the
retries sleep `backoff·2^i + jitter_i` for `i = 0..n-1` (the backoff
doubling after every such retry) and the final response is returned on call
`n + 1`. -/
theorem retryLoop_absent_run {β : Type} (oracle : Nat → HttpOutcome β) (jitter : Nat → Int)
    (hj : ∀ k, 0 ≤ jitter k) (st : Nat) (raf : String) (bodyf : β) (hst : st ≠ 429) :
    ∀ (n attempt fuel : Nat) (backoff : Int) (sleeps : List Int),
      (∀ k, k < n → ∃ b, oracle (attempt + k) = .resp 429 "" b) →
      oracle (attempt + n) = .resp st raf bodyf →
      attempt + n < maxRetries → fuel + attempt = maxRetries → 0 < backoff →
      doWithRetryLoop oracle jitter fuel attempt backoff sleeps =
        ⟨.ok (st, bodyf),
         sleeps ++ (List.range n).map (fun i => backoff * 2 ^ i + jitter (attempt + i)),
         attempt + n + 1⟩ := by
  have h8 : maxRetries = 8 := rfl
  intro n
  induction n with
  | zero =>
    intro attempt fuel backoff sleeps h429 hfin hlt hfa hb
    obtain ⟨f, rfl⟩ : ∃ f, fuel = f + 1 := by
      rcases fuel with _ | f
      · omega
      · exact ⟨f, rfl⟩
    rw [retryLoop_non429 oracle jitter f attempt backoff sleeps st raf bodyf
      (by simpa using hfin) hst]
    simp
  | succ n ih =>
    intro attempt fuel backoff sleeps h429 hfin hlt hfa hb
    obtain ⟨f, rfl⟩ : ∃ f, fuel = f + 1 := by
      rcases fuel with _ | f
      · omega
      · exact ⟨f, rfl⟩
    obtain ⟨b0, hb0⟩ := h429 0 (Nat.succ_pos n)
    rw [retryLoop_429_absent oracle jitter f attempt backoff sleeps "" b0
      (by simpa using hb0) (by omega) (by decide) hb (hj attempt)]
    rw [ih (attempt + 1) f (backoff * 2) (sleeps ++ [backoff + jitter attempt])
      (fun k hk => by simpa [Nat.add_assoc, Nat.add_comm 1 k] using h429 (k + 1) (by omega))
      (by simpa [Nat.add_assoc, Nat.add_comm 1 n] using hfin)
      (by omega) (by omega) (by positivity)]
    simp only [RetryTrace.mk.injEq]
    refine ⟨trivial, ?_, by omega⟩
    rw [List.append_assoc, List.singleton_append]
    congr 1
    rw [List.range_succ_eq_map, List.map_cons, List.map_map]
    congr 1
    · simp
    · apply List.map_congr_left
      intro i _
      simp only [Function.comp_apply, Nat.succ_eq_add_one]
      have h1 : attempt + (i + 1) = attempt + 1 + i := by omega
      rw [pow_succ, h1]
      ring

end Llm

/-- C3: the resilient transport's 429 policy.  (a) ceaseless 429s are
retried up to 8 attempts total and then surfaced as a terminal error
carrying status 429; (b) a present Retry-After of 0 retries immediately
with no sleep; (c) a present positive Retry-After of `secs` sleeps exactly
`secs` seconds; (d) an absent or unparseable Retry-After sleeps
`backoff + jitter` with `backoff` starting at the 2-second default and
doubling after every such retry; (e) Scenario E — a 429 with Retry-After 0
followed by a 200 yields 2 attempts and a success whose usage counters come
from the second response only. -/
theorem c3_retry_policy :
    (∀ (ib : Int) (oracle : Nat → Llm.HttpOutcome Llm.openAIResponse) (jitter : Nat → Int),
       (∀ k, ∃ ra b, oracle k = .resp 429 ra b) →
       (Llm.OpenAIClient.sendMessage ib oracle jitter).result = .error (.apiError 429) ∧
       (Llm.OpenAIClient.sendMessage ib oracle jitter).calls = Llm.maxRetries) ∧
    (∀ (β : Type) (oracle : Nat → Llm.HttpOutcome β) (jitter : Nat → Int)
       (fuel attempt : Nat) (backoff : Int) (sleeps : List Int) (ra : String) (body : β),
       oracle attempt = .resp 429 ra body → attempt ≠ Llm.maxRetries - 1 →
       Llm.parseRetryAfter ra = 0 →
       Llm.doWithRetryLoop oracle jitter (fuel + 1) attempt backoff sleeps =
         Llm.doWithRetryLoop oracle jitter fuel (attempt + 1) backoff sleeps) ∧
    (∀ (β : Type) (oracle : Nat → Llm.HttpOutcome β) (jitter : Nat → Int)
       (fuel attempt : Nat) (backoff : Int) (sleeps : List Int) (ra : String) (body : β)
       (secs : Int),
       oracle attempt = .resp 429 ra body → attempt ≠ Llm.maxRetries - 1 →
       ra ≠ "" → GoStrconv.atoi ra = .ok secs → 0 < secs →
       Llm.doWithRetryLoop oracle jitter (fuel + 1) attempt backoff sleeps =
         Llm.doWithRetryLoop oracle jitter fuel (attempt + 1) backoff
           (sleeps ++ [secs * Llm.second])) ∧
    (∀ (n : Nat) (oracle : Nat → Llm.HttpOutcome Llm.openAIResponse) (jitter : Nat → Int)
       (r : Llm.MessageResponse) (b200 : Llm.openAIResponse),
       (∀ k, 0 ≤ jitter k) → n < Llm.maxRetries →
       (∀ k, k < n → ∃ b, oracle k = .resp 429 "" b) →
       oracle n = .resp 200 "" b200 → Llm.OpenAIClient.parseResponse b200 = .ok r →
       Llm.OpenAIClient.sendMessage 0 oracle jitter =
         ⟨.ok r, (List.range n).map (fun i => 2 * Llm.second * 2 ^ i + jitter i), n + 1⟩) ∧
    (Llm.OpenAIClient.sendMessage 0
       (fun k => if k = 0 then
           .resp 429 "0" { choices := [], usage := ⟨100, 100⟩ }
         else
           .resp 200 "" { choices := [⟨{ role := "assistant", content := "ok" }⟩],
                          usage := ⟨5, 3⟩ })
       (fun _ => 0) =
       ⟨.ok { text := "ok", toolCalls := [], usage := ⟨5, 3⟩ }, [], 2⟩) := by
  have h8 : Llm.maxRetries = 8 := rfl
  refine ⟨?_, ?_, ?_, ?_, ?_⟩
  · intro ib oracle jitter h
    obtain ⟨b, sl, hloop⟩ := Llm.retryLoop_all429 oracle jitter h Llm.maxRetries 0
      (if ib ≤ 0 then 2 * Llm.second else ib) [] (by omega) (by omega)
    have hsend : Llm.OpenAIClient.sendMessage ib oracle jitter =
        ⟨.error (.apiError 429), sl, Llm.maxRetries⟩ := by
      simp only [Llm.OpenAIClient.sendMessage, Llm.doWithRetry]
      rw [hloop]
      norm_num
    rw [hsend]
    exact ⟨rfl, rfl⟩
  · intro β oracle jitter fuel attempt backoff sleeps ra body ho hlast hra
    exact Llm.retryLoop_429_zero oracle jitter fuel attempt backoff sleeps ra body ho hlast hra
  · intro β oracle jitter fuel attempt backoff sleeps ra body secs ho hlast hne hatoi hpos
    have hra : Llm.parseRetryAfter ra = secs * Llm.second := by
      unfold Llm.parseRetryAfter
      rw [if_neg hne]
      simp only [hatoi]
      rw [if_neg (by omega)]
    have := Llm.retryLoop_429_positive oracle jitter fuel attempt backoff sleeps ra body ho hlast
      (by rw [hra]; exact mul_pos hpos (by decide))
    rwa [hra] at this
  · intro n oracle jitter r b200 hj hn h429 hfin hp
    have hloop := Llm.retryLoop_absent_run oracle jitter hj 200 "" b200 (by omega) n 0
      Llm.maxRetries (2 * Llm.second) []
      (fun k hk => by simpa using h429 k hk) (by simpa using hfin) (by omega) (by omega)
      (by decide)
    simp only [Llm.OpenAIClient.sendMessage, Llm.doWithRetry]
    rw [if_pos (by omega), hloop]
    simp only [List.nil_append, Nat.zero_add]
    norm_num [hp]
  · rfl

/-- Witness for C3: conjunct (a) at a concrete always-429 oracle and
conjunct (c) at a concrete `Retry-After: 30` response. -/
theorem c3_witness :
    ((Llm.OpenAIClient.sendMessage 0
        (fun _ => .resp 429 "" ({ } : Llm.openAIResponse)) (fun _ => 1)).result =
      .error (.apiError 429) ∧
     (Llm.OpenAIClient.sendMessage 0
        (fun _ => .resp 429 "" ({ } : Llm.openAIResponse)) (fun _ => 1)).calls =
      Llm.maxRetries) ∧
    Llm.doWithRetryLoop (fun _ => .resp 429 "30" ({ } : Llm.openAIResponse)) (fun _ => 1)
      (6 + 1) 0 (2 * Llm.second) [] =
      Llm.doWithRetryLoop (fun _ => .resp 429 "30" ({ } : Llm.openAIResponse)) (fun _ => 1)
        6 1 (2 * Llm.second) ([] ++ [30 * Llm.second]) := by
  constructor
  · exact c3_retry_policy.1 0 (fun _ => .resp 429 "" ({ } : Llm.openAIResponse)) (fun _ => 1)
      (fun k => ⟨"", { }, rfl⟩)
  · exact c3_retry_policy.2.2.1 Llm.openAIResponse
      (fun _ => .resp 429 "30" ({ } : Llm.openAIResponse)) (fun _ => 1) 6 0 (2 * Llm.second)
      [] "30" { } 30 rfl (by decide) (by decide) rfl (by decide)

/-- Counterexample for C8.  The claim asserts that both adapter families
sit on the resilient transport, so that a request through the block-style
(Anthropic) adapter retries a 429 before surfacing any error.  The
Anthropic `SendMessage` performs a single `p.HTTP.Do` call with no retry:
on a 429-then-200 sequence — which the retry policy would turn into a
success — it stops after exactly one call and surfaces the 429
immediately. -/
theorem c8_counterexample :
    Llm.AnthropicClient.sendMessage
      (fun k => if k = 0 then .resp 429 "0" { content := [], usage := ⟨1, 1⟩ }
                else .resp 200 "" { content := [⟨"text", "ok", "", "", ""⟩], usage := ⟨5, 3⟩ }) =
      ⟨.error (.apiError 429), [], 1⟩ := by
  rfl

/-- C8 (amended): only the role-message (OpenAI) family is built on the
resilient transport — (a) it turns a 429-with-Retry-After-0 followed by a
200 into a success after 2 calls.  The block-style (Anthropic) adapter is
not: (b) it makes exactly one HTTP call and never sleeps, and (c) it
surfaces every non-200 status — including 429 — immediately as an API
error carrying the status. -/
theorem c8_transport_families :
    (∀ (ib : Int) (jitter : Nat → Int) (b429 b200 : Llm.openAIResponse)
       (r : Llm.MessageResponse),
       Llm.OpenAIClient.parseResponse b200 = .ok r →
       Llm.OpenAIClient.sendMessage ib
         (fun k => if k = 0 then .resp 429 "0" b429 else .resp 200 "" b200) jitter =
         ⟨.ok r, [], 2⟩) ∧
    (∀ oracle : Nat → Llm.HttpOutcome Llm.anthropicResponse,
       (Llm.AnthropicClient.sendMessage oracle).calls = 1 ∧
       (Llm.AnthropicClient.sendMessage oracle).sleeps = []) ∧
    (∀ (oracle : Nat → Llm.HttpOutcome Llm.anthropicResponse) (status : Nat) (ra : String)
       (body : Llm.anthropicResponse), oracle 0 = .resp status ra body → status ≠ 200 →
       Llm.AnthropicClient.sendMessage oracle = ⟨.error (.apiError status), [], 1⟩) := by
  refine ⟨?_, ?_, ?_⟩
  · intro ib jitter b429 b200 r hp
    have h1 : Llm.doWithRetryLoop
        (fun k => if k = 0 then Llm.HttpOutcome.resp 429 "0" b429
                  else Llm.HttpOutcome.resp 200 "" b200) jitter
        Llm.maxRetries 0 (if ib ≤ 0 then 2 * Llm.second else ib) [] =
        ⟨.ok (200, b200), [], 2⟩ := by
      rw [show Llm.maxRetries = 7 + 1 from rfl]
      rw [Llm.retryLoop_429_zero _ jitter 7 0 _ [] "0" b429 (by simp) (by decide) (by decide)]
      rw [show (7 : Nat) = 6 + 1 from rfl]
      rw [Llm.retryLoop_non429 _ jitter 6 1 _ [] 200 "" b200 (by simp) (by decide)]
    simp only [Llm.OpenAIClient.sendMessage, Llm.doWithRetry]
    rw [h1]
    norm_num [hp]
  · intro oracle
    unfold Llm.AnthropicClient.sendMessage
    rcases oracle 0 with m | ⟨status, ra, body⟩
    · exact ⟨rfl, rfl⟩
    · by_cases hs : status ≠ 200
      · simp [hs]
      · simp [hs]
  · intro oracle status ra body ho hs
    unfold Llm.AnthropicClient.sendMessage
    rw [ho]
    simp [hs]

/-- Witness for C8's amended theorem at concrete inputs. -/
theorem c8_witness :
    (Llm.OpenAIClient.sendMessage 0
       (fun k => if k = 0 then .resp 429 "0" ({ } : Llm.openAIResponse)
                 else .resp 200 ""
                   { choices := [⟨{ role := "assistant", content := "ok" }⟩], usage := ⟨5, 3⟩ })
       (fun _ => 0) =
      ⟨.ok { text := "ok", toolCalls := [], usage := ⟨5, 3⟩ }, [], 2⟩) ∧
    Llm.AnthropicClient.sendMessage
      (fun _ => .resp 429 "0" ({ } : Llm.anthropicResponse)) =
      ⟨.error (.apiError 429), [], 1⟩ := by
  constructor
  · exact c8_transport_families.1 0 (fun _ => 0) { }
      { choices := [⟨{ role := "assistant", content := "ok" }⟩], usage := ⟨5, 3⟩ }
      { text := "ok", toolCalls := [], usage := ⟨5, 3⟩ } rfl
  · exact c8_transport_families.2.2 (fun _ => .resp 429 "0" { }) 429 "0" { } rfl (by decide)

namespace EvalsFilter

/-- A case survives the tier filter of `filterCases` (the `continue` guard
of its loop does not fire). -/
def passesTier (minT maxT : Int) (ec : EvalCmd.evalCase) : Prop :=
  ¬(minT > 0 ∧ (ec.tier < minT ∨ ec.tier > maxT))

/-- A glob pattern the matcher rejects as `ErrBadPattern` on every name.
Since Go 1.16, `path.Match` reports `ErrBadPattern` for a syntactically
malformed pattern regardless of the name (on a mismatch it still validates
the remainder of the pattern), so this captures exactly the syntactically
malformed patterns. -/
def MalformedPattern (p : String) : Prop :=
  ∀ name, GoPathMatch.pathMatch p name = .error ()

/-- The empty pattern is never malformed (it matches nothing but errors on
nothing either), so a malformed pattern always reaches the `path.Match`
call inside the loop. -/
theorem MalformedPattern.ne_empty {p : String} (hmal : MalformedPattern p) : p ≠ "" := by
  intro h
  subst h
  exact Except.noConfusion (hmal "")

/-- With a malformed pattern, the selection loop errors exactly when it
reaches the `path.Match` call, i.e. exactly when some case survives the
tier filter; if no case does, the loop completes with an empty, error-free
selection. -/
theorem filterLoop_malformed (pattern : String) (minT maxT : Int)
    (hmal : MalformedPattern pattern) :
    ∀ cs : List EvalCmd.evalCase,
      ((∃ ec ∈ cs, passesTier minT maxT ec) →
        filterLoop pattern minT maxT cs = .error "bad filter pattern") ∧
      ((∀ ec ∈ cs, ¬ passesTier minT maxT ec) →
        filterLoop pattern minT maxT cs = .ok []) := by
  have hne : pattern ≠ "" := hmal.ne_empty
  intro cs
  induction cs with
  | nil =>
    constructor
    · rintro ⟨ec, hmem, -⟩
      exact absurd hmem (List.not_mem_nil _)
    · intro _
      rfl
  | cons ec rest ih =>
    constructor
    · rintro ⟨e, hmem, hpass⟩
      unfold filterLoop
      by_cases ht : minT > 0 ∧ (ec.tier < minT ∨ ec.tier > maxT)
      · rw [if_pos ht]
        apply ih.1
        rcases List.mem_cons.mp hmem with heq | hr
        · subst heq
          exact absurd ht hpass
        · exact ⟨e, hr, hpass⟩
      · rw [if_neg ht, if_pos hne, hmal ec.name]
    · intro hall
      unfold filterLoop
      have ht : minT > 0 ∧ (ec.tier < minT ∨ ec.tier > maxT) :=
        not_not.mp (hall ec (List.mem_cons_self ec rest))
      rw [if_pos ht]
      exact ih.2 fun e he => hall e (List.mem_cons_of_mem ec he)

end EvalsFilter

/-- C10: with a syntactically malformed glob pattern, `filterCases` reports
the "bad filter pattern" configuration error if and only if at least one
case passes the tier filter; when the catalog is empty or the tier filter
excludes every case, the malformed pattern is never consulted and the
result is an empty selection with no error. -/
theorem c10_malformed_pattern_laziness
    (cs : List EvalCmd.evalCase) (pattern tierSpec : String) (minT maxT : Int)
    (hparse : EvalsFilter.parseTierSpec tierSpec = .ok (minT, maxT))
    (hmal : EvalsFilter.MalformedPattern pattern) :
    (EvalsFilter.filterCases cs pattern tierSpec = .error "bad filter pattern" ↔
      ∃ ec ∈ cs, EvalsFilter.passesTier minT maxT ec) ∧
    ((∀ ec ∈ cs, ¬ EvalsFilter.passesTier minT maxT ec) →
      EvalsFilter.filterCases cs pattern tierSpec = .ok []) := by
  have hloop := EvalsFilter.filterLoop_malformed pattern minT maxT hmal cs
  have hcases : EvalsFilter.filterCases cs pattern tierSpec =
      EvalsFilter.filterLoop pattern minT maxT cs := by
    unfold EvalsFilter.filterCases
    rw [hparse]
  constructor
  · constructor
    · intro herr
      by_contra hno
      push_neg at hno
      have hok := hloop.2 hno
      rw [hcases, hok] at herr
      exact Except.noConfusion herr
    · intro hex
      rw [hcases]
      exact hloop.1 hex
  · intro hall
    rw [hcases]
    exact hloop.2 hall

/-- The concrete case used by the C10 witness. -/
def c10wCase : EvalCmd.evalCase :=
  { name := "game_of_life", tier := 5, prompt := "", judge := fun _ => false }

/-- Witness for C10 at the concrete malformed pattern `"["`: with the
match-all tier spec the single case reaches the matcher and the error
surfaces; with tier spec `"9"` the tier filter excludes the case, so the
same malformed pattern yields an error-free empty selection. -/
theorem c10_witness :
    EvalsFilter.filterCases [c10wCase] "[" "" = .error "bad filter pattern" ∧
    EvalsFilter.filterCases [c10wCase] "[" "9" = .ok [] := by
  have hmal : EvalsFilter.MalformedPattern "[" := fun name => rfl
  constructor
  · exact (c10_malformed_pattern_laziness [c10wCase] "[" "" 0 0 rfl hmal).1.mpr
      ⟨c10wCase, List.mem_singleton.mpr rfl, by unfold EvalsFilter.passesTier c10wCase; decide⟩
  · exact (c10_malformed_pattern_laziness [c10wCase] "[" "9" 9 9 rfl hmal).2
      (fun ec hm => by
        rcases List.mem_singleton.mp hm with rfl
        unfold EvalsFilter.passesTier c10wCase
        decide)
